import Mathlib

/-!
Verification of the memory-mapped statfile engine
(`src/libstat/backends/mmaped_file.c`).

The block table of the active section is modelled as a `List` of 16-byte
blocks whose length equals `cur_section.length` (the handle invariant
`seek_pos + length * 16 ≤ map_len` makes the section array exactly that
long).  `double` values are modelled as exact rationals: every finite
IEEE-754 double is a rational, equality/order on finite doubles agree
with the rational ones, and `G_MAXDOUBLE` is modelled as the absent
(`none`) initial minimum, below which every scanned value falls.
Machine integers are `Nat` with an explicit `% 2 ^ w` wherever a
narrowing assignment occurs in the C source.
-/

set_option maxRecDepth 10000

/-- `CHAIN_LENGTH` from the source: probe chains inspect at most this
many consecutive blocks. -/
def CHAIN_LENGTH : Nat := 128

/-- `STATFILES_MAX` from the source: hard cap constant of the pool. -/
def STATFILES_MAX : Nat := 255

/-- Section code `STATFILE_SECTION_COMMON`. -/
def STATFILE_SECTION_COMMON : Nat := 1

/-- `sizeof (struct stat_file_header)`: 3+2+3 bytes of magic/version/padding,
five 8-byte counters, 239 unused bytes = 287 bytes, padded to 288 by the
8-byte alignment of the `guint64` members. -/
def SIZEOF_STAT_FILE_HEADER : Nat := 288

/-- `sizeof (struct stat_file_section)`: two `guint64` fields. -/
def SIZEOF_STAT_FILE_SECTION : Nat := 16

/-- `sizeof (struct stat_file_block)`: two `guint32` plus one `double`. -/
def SIZEOF_STAT_FILE_BLOCK : Nat := 16

/-- `sizeof (struct stat_file)`: header, one section header, one block. -/
def SIZEOF_STAT_FILE : Nat :=
  SIZEOF_STAT_FILE_HEADER + SIZEOF_STAT_FILE_SECTION + SIZEOF_STAT_FILE_BLOCK

/-- `struct stat_file_block`: `(hash1 : u32, hash2 : u32, value : double)`.
Hashes are supplied by callers as 32-bit values; no arithmetic is done on
them, so they are plain `Nat` here. -/
structure stat_file_block where
  hash1 : Nat
  hash2 : Nat
  value : Rat
deriving DecidableEq

/-- The all-zero block that `statfile_pool_create` writes everywhere. -/
def freeBlock : stat_file_block := { hash1 := 0, hash2 := 0, value := 0 }

/-- The source's match test `block->hash1 == h1 && block->hash2 == h2`. -/
def isMatch (b : stat_file_block) (h1 h2 : Nat) : Bool :=
  b.hash1 == h1 && b.hash2 == h2

/-- The source's free-slot test `block->hash1 == 0 && block->hash2 == 0`. -/
def isFree (b : stat_file_block) : Bool :=
  b.hash1 == 0 && b.hash2 == 0

/-- The probe loop of `statfile_pool_get_block`: `fuel` counts the
remaining iterations of `for (i = 0; i < CHAIN_LENGTH; i++)`, `pos` is
`blocknum + i`; the loop breaks as soon as `pos` reaches the section
length and returns `0` when the chain is exhausted. -/
def getLoop (blocks : List stat_file_block) (h1 h2 : Nat) (pos fuel : Nat) : Rat :=
  match fuel with
  | 0 => 0
  | fuel' + 1 =>
    if blocks.length ≤ pos then 0
    else
      let b := blocks.getD pos freeBlock
      if isMatch b h1 h2 then b.value
      else getLoop blocks h1 h2 (pos + 1) fuel'

/-- `statfile_pool_get_block` reduced to the section's block array:
probe `CHAIN_LENGTH` consecutive slots starting at `h1 mod length`.
(The C function additionally stamps `access_time` and returns `0` for a
`NULL` mapping; neither affects the table contents.) -/
def statfile_pool_get_block (blocks : List stat_file_block) (h1 h2 : Nat) : Rat :=
  getLoop blocks h1 h2 (h1 % blocks.length) CHAIN_LENGTH

/-- Result of one `statfile_pool_set_block_common` call: the new block
array and whether `header->used_blocks` was incremented. -/
structure SetResult where
  blocks : List stat_file_block
  used_incremented : Bool
deriving DecidableEq

/-- The `to_expire`/`min` bookkeeping of the set loop.  `none` models the
initial `min = G_MAXDOUBLE`, below which the first scanned value always
falls; `some (j, m)` records the slot index of the current minimum and
its value, updated on a strict `block->value < min`. -/
def expireUpdate (acc : Option (Nat × Rat)) (pos : Nat) (v : Rat) : Option (Nat × Rat) :=
  match acc with
  | none => some (pos, v)
  | some (j, m) => if v < m then some (pos, v) else some (j, m)

/-- The expiry write after the probe loop: overwrite the tracked
minimum slot, or the chain's first slot `blocknum` when nothing was
scanned. -/
def expireWrite (blocks : List stat_file_block) (h1 h2 : Nat) (value : Rat)
    (blocknum : Nat) (acc : Option (Nat × Rat)) : SetResult :=
  match acc with
  | some (j, _) =>
    { blocks := blocks.set j { hash1 := h1, hash2 := h2, value := value },
      used_incremented := false }
  | none =>
    { blocks := blocks.set blocknum { hash1 := h1, hash2 := h2, value := value },
      used_incremented := false }

/-- The probe loop of `statfile_pool_set_block_common`: at each slot,
first the exact-match test (overwrite value), then the free-slot test
(occupy, bump `used_blocks`), otherwise track the minimum-valued slot
and continue; on chain exhaustion expire. -/
def setLoop (blocks : List stat_file_block) (h1 h2 : Nat) (value : Rat)
    (blocknum pos fuel : Nat) (acc : Option (Nat × Rat)) : SetResult :=
  match fuel with
  | 0 => expireWrite blocks h1 h2 value blocknum acc
  | fuel' + 1 =>
    if blocks.length ≤ pos then expireWrite blocks h1 h2 value blocknum acc
    else
      let b := blocks.getD pos freeBlock
      if isMatch b h1 h2 then
        { blocks := blocks.set pos { b with value := value }, used_incremented := false }
      else if isFree b then
        { blocks := blocks.set pos { hash1 := h1, hash2 := h2, value := value },
          used_incremented := true }
      else
        setLoop blocks h1 h2 value blocknum (pos + 1) fuel' (expireUpdate acc pos b.value)

/-- `statfile_pool_set_block_common` reduced to the block array (the
`t`/`from_now` arguments only stamp `access_time`). -/
def statfile_pool_set_block_common (blocks : List stat_file_block)
    (h1 h2 : Nat) (value : Rat) : SetResult :=
  setLoop blocks h1 h2 value (h1 % blocks.length) (h1 % blocks.length) CHAIN_LENGTH none

/-- Slot `i` is inside the section and holds either the key `(h1,h2)` or
a free block. -/
def matchOrFreeAt (blocks : List stat_file_block) (h1 h2 i : Nat) : Bool :=
  decide (i < blocks.length) &&
    (isMatch (blocks.getD i freeBlock) h1 h2 || isFree (blocks.getD i freeBlock))

/-- The probe chain of `(h1,h2)` still holds the key or a free slot
within reach: some slot of the at-most-`CHAIN_LENGTH` window starting at
`h1 mod length` matches or is free. -/
def chainHasMatchOrFree (blocks : List stat_file_block) (h1 h2 : Nat) : Bool :=
  (List.range CHAIN_LENGTH).any fun i =>
    matchOrFreeAt blocks h1 h2 (h1 % blocks.length + i)

/-- Number of slots the probe loops actually visit for `h1`: the chain
cap clamped by the section end. -/
def windowLen (blocks : List stat_file_block) (h1 : Nat) : Nat :=
  min CHAIN_LENGTH (blocks.length - h1 % blocks.length)

/-- Every visited slot of the chain of `(h1,h2)` is occupied by some
other key (and the section is non-empty): the situation in which the
set loop runs its expiry path. -/
def chainFull (blocks : List stat_file_block) (h1 h2 : Nat) : Bool :=
  decide (0 < blocks.length) &&
    (List.range (windowLen blocks h1)).all fun i =>
      !(isMatch (blocks.getD (h1 % blocks.length + i) freeBlock) h1 h2) &&
      !(isFree (blocks.getD (h1 % blocks.length + i) freeBlock))

/-- The slots a probe for `h1` can inspect: at most `CHAIN_LENGTH`
consecutive blocks from `h1 mod length`, clamped by the section end,
with no wraparound. -/
def chainWindow (blocks : List stat_file_block) (h1 : Nat) : List stat_file_block :=
  (blocks.drop (h1 % blocks.length)).take CHAIN_LENGTH

/-- First-match lookup over a chain window. -/
def chainFindValue (win : List stat_file_block) (h1 h2 : Nat) : Rat :=
  match win.find? (fun b => isMatch b h1 h2) with
  | some b => b.value
  | none => 0

/-- The `to_expire` accumulator after scanning the slots
`pos, pos+1, ...` for `fuel` steps (stopping at the section end), used
to characterise the full-chain run of the set loop. -/
def accumMin (blocks : List stat_file_block) (acc : Option (Nat × Rat))
    (pos fuel : Nat) : Option (Nat × Rat) :=
  match fuel with
  | 0 => acc
  | fuel' + 1 =>
    if blocks.length ≤ pos then acc
    else accumMin blocks (expireUpdate acc pos (blocks.getD pos freeBlock).value)
      (pos + 1) fuel'

/-- `struct stat_file_header`.  `magic`/`version` are byte lists;
defaults are the initialiser of `statfile_pool_create`. -/
structure stat_file_header where
  magic : List Nat := [114, 115, 100]
  version : List Nat := [49, 50]
  create_time : Nat := 0
  revision : Nat := 0
  rev_time : Nat := 0
  used_blocks : Nat := 0
  total_blocks : Nat := 0
deriving DecidableEq

/-- `struct stat_file_section`: code and length in blocks. -/
structure stat_file_section where
  code : Nat
  length : Nat
deriving DecidableEq

/-- A statfile image as laid out by `statfile_pool_create`: header, one
section header (field `sect`; `section` is a keyword here), and that
section's block array. -/
structure stat_file_model where
  header : stat_file_header
  sect : stat_file_section
  blocks : List stat_file_block
deriving DecidableEq

/-- `statfile_pool_create` (file contents only; I/O failures are modelled
out).  `nblocks` is a C `guint`, so the 64-bit `size_t` quotient is
narrowed `% 2 ^ 32`.  Sizes below header+section+one block are refused. -/
def statfile_pool_create (now size : Nat) : Option stat_file_model :=
  if size < SIZEOF_STAT_FILE_HEADER + SIZEOF_STAT_FILE_SECTION + SIZEOF_STAT_FILE_BLOCK then
    none
  else
    let nblocks := ((size - SIZEOF_STAT_FILE_HEADER - SIZEOF_STAT_FILE_SECTION) /
      SIZEOF_STAT_FILE_BLOCK) % 2 ^ 32
    some { header := { create_time := now, total_blocks := nblocks },
           sect := { code := STATFILE_SECTION_COMMON, length := nblocks },
           blocks := List.replicate nblocks freeBlock }

/-- Byte length of a single-section statfile image. -/
def fileByteLen (f : stat_file_model) : Nat :=
  SIZEOF_STAT_FILE_HEADER + SIZEOF_STAT_FILE_SECTION +
    SIZEOF_STAT_FILE_BLOCK * f.blocks.length

/-- An open handle (`rspamd_mmaped_file_t`) reduced to what the header
operations read: the mapping (if any) and the current section cursor. -/
structure rspamd_mmaped_file where
  map : Option stat_file_model
  cur_section : stat_file_section
deriving DecidableEq

/-- `rspamd_mmaped_file_check` on a single-section image: length, magic
and version checks, then the section cursor is initialised from the
first section header.  The legacy version `{1,0}` branch delegates to
the external `convert_statfile_10` (not part of this source) and is
modelled as rejection; no claim below exercises it. -/
def rspamd_mmaped_file_check (f : stat_file_model) : Option rspamd_mmaped_file :=
  if fileByteLen f < SIZEOF_STAT_FILE then none
  else if f.header.magic ≠ [114, 115, 100] then none
  else if f.header.version = [1, 0] then none
  else if f.header.version ≠ [49, 50] then none
  else if f.sect.length * SIZEOF_STAT_FILE_BLOCK > fileByteLen f then none
  else some { map := some f, cur_section := f.sect }

/-- `statfile_get_total_blocks`: returns the pair (handle after the
call, returned count).  A `NULL` file or mapping yields
`(guint64) - 1 = 2 ^ 64 - 1`; a zero `total_blocks` (legacy header) is
first overwritten in the mapping with `cur_section.length`. -/
def statfile_get_total_blocks (file : Option rspamd_mmaped_file) :
    Option rspamd_mmaped_file × Nat :=
  match file with
  | none => (none, 2 ^ 64 - 1)
  | some f =>
    match f.map with
    | none => (some f, 2 ^ 64 - 1)
    | some m =>
      if m.header.total_blocks = 0 then
        let m' : stat_file_model :=
          { m with header := { m.header with total_blocks := f.cur_section.length } }
        (some { f with map := some m' }, f.cur_section.length)
      else (some f, m.header.total_blocks)

/-- `2 ^ e`, written in base `2 ^ 256` so that evaluating it on a
concrete exponent stays shallow; `pow2_eq` below proves
`pow2 e = 2 ^ e`. -/
def pow2 (e : Nat) : Nat := 2 ^ (e % 256) * (2 ^ 256) ^ (e / 256)

/-- Exact value of an IEEE-754 binary64 word: `mkRat n d` is the exact
rational `n / d`, so a normal double decodes to
`(2 ^ 52 + mantissa) * 2 ^ exponent / 2 ^ 1075` and a subnormal one to
`mantissa / 2 ^ 1074`.  The exponent 2047 (infinities and NaNs, which
the engine never stores) is mapped to a sentinel outside the finite
range. -/
def decodeDouble (w : Nat) : Rat :=
  let sign : Nat := w / 2 ^ 63
  let expo : Nat := (w / 2 ^ 52) % 2 ^ 11
  let mant : Nat := w % 2 ^ 52
  let mag : Rat :=
    if expo = 0 then mkRat mant (pow2 1074)
    else if expo = 2047 then mkRat (pow2 2000) 1
    else mkRat ((2 ^ 52 + mant) * pow2 expo) (pow2 1075)
  if sign = 1 then -mag else mag

/-- The properly aligned 16-byte blocks of a backup's block area, given
as the little-endian 64-bit words from byte offset 304 on: word `2k` is
`(hash1, hash2)` of block `k` (low half `hash1`), word `2k+1` its
value. -/
def alignedBlocks (ws : List Nat) : List stat_file_block :=
  match ws with
  | w0 :: w1 :: rest =>
    { hash1 := w0 % 2 ^ 32, hash2 := w0 / 2 ^ 32, value := decodeDouble w1 } ::
      alignedBlocks rest
  | _ => []

/-- The copy loop of `rspamd_mmaped_file_reindex`.  The loop guard keeps
going while 16 bytes (`sizeof (struct stat_file_block)`) remain, but the
step is `pos += sizeof (block)` where `block` is a *pointer*, i.e. 8
bytes — so successive iterations read the 16-byte window at every
8-byte offset `k` of the word list: hashes from word `k`, value from
word `k+1`.  Blocks with `hash1 == 0` or `value == 0` are skipped,
others go through the block-table put path. -/
def reindexCopyLoop (ws : List Nat) (k : Nat) (dest : List stat_file_block)
    (fuel : Nat) : List stat_file_block :=
  match fuel with
  | 0 => dest
  | fuel' + 1 =>
    if k + 2 ≤ ws.length then
      let w0 := ws.getD k 0
      let h1 := w0 % 2 ^ 32
      let h2 := w0 / 2 ^ 32
      let v := decodeDouble (ws.getD (k + 1) 0)
      let dest' := if h1 ≠ 0 ∧ v ≠ 0 then
          (statfile_pool_set_block_common dest h1 h2 v).blocks
        else dest
      reindexCopyLoop ws (k + 1) dest' fuel'
    else dest

/-- The whole copy phase of reindex: run the loop from word offset 0.
`ws.length` iterations always suffice since the offset advances by one
word per step. -/
def rspamd_mmaped_file_reindex_copy (ws : List Nat) (dest : List stat_file_block) :
    List stat_file_block :=
  reindexCopyLoop ws 0 dest ws.length

/-- `rspamd_mmaped_file_reindex` (file contents only): refuse sizes below
`sizeof (header) + sizeof (section) + sizeof (block)` where `block` is a
pointer (8 bytes!), create the new file, validate it as opening does,
copy the backup's block area through the put path, then copy
`revision`/`rev_time` from the backup header via `statfile_set_revision`.
Renaming, unlinking and I/O failures are modelled out. -/
def rspamd_mmaped_file_reindex (backupHeader : stat_file_header) (ws : List Nat)
    (size : Nat) : Option stat_file_model :=
  if size < SIZEOF_STAT_FILE_HEADER + SIZEOF_STAT_FILE_SECTION + 8 then none
  else
    match statfile_pool_create 0 size with
    | none => none
    | some nf =>
      match rspamd_mmaped_file_check nf with
      | none => none
      | some _ =>
        some { nf with
          blocks := rspamd_mmaped_file_reindex_copy ws nf.blocks,
          header := { nf.header with
            revision := backupHeader.revision,
            rev_time := backupHeader.rev_time } }

/-- Little-endian 64-bit read from a byte list (missing bytes read 0). -/
def readLE64 (bytes : List Nat) (off : Nat) : Nat :=
  (List.range 8).foldr (fun i acc => acc * 256 + bytes.getD (off + i) 0) 0

/-- Outcome of the section-walk loop: a section was found (cursor value
and new seek position), the loop exited with `FALSE`, or the given fuel
ran out with the walk still at `cur_offset` (the C loop would still be
running). -/
inductive SectionSearch where
  | found (sec : stat_file_section) (seek_pos : Nat)
  | not_found
  | running (cur_offset : Nat)
deriving DecidableEq

/-- The walk of `statfile_pool_set_section`: while `cur_offset < len`,
read the section header at `cur_offset`; on a code match set the cursor
and `seek_pos = cur_offset + sizeof (struct stat_file_section)`,
otherwise advance by `cur_offset += sec->length` — the raw length field,
not its byte span. -/
def statfile_pool_set_section_loop (bytes : List Nat) (code cur_offset fuel : Nat) :
    SectionSearch :=
  match fuel with
  | 0 => .running cur_offset
  | fuel' + 1 =>
    if cur_offset < bytes.length then
      let scode := readLE64 bytes cur_offset
      let slen := readLE64 bytes (cur_offset + 8)
      if scode = code then .found { code := code, length := slen } (cur_offset + 16)
      else statfile_pool_set_section_loop bytes code (cur_offset + slen) fuel'
    else .not_found

/-- `statfile_pool_set_section`: start at `sizeof (header)` when
`from_begin`, else at `seek_pos - sizeof (section)`. -/
def statfile_pool_set_section (bytes : List Nat) (code seek_pos : Nat)
    (from_begin : Bool) (fuel : Nat) : SectionSearch :=
  statfile_pool_set_section_loop bytes code
    (if from_begin then SIZEOF_STAT_FILE_HEADER else seek_pos - SIZEOF_STAT_FILE_SECTION)
    fuel

/-- The section walk as claim C8 states it: identical to the code's walk
except that a non-matching section is skipped by its byte span,
`length * 16 + sizeof (section header)`. -/
def claimLocateSection (bytes : List Nat) (code cur_offset fuel : Nat) : SectionSearch :=
  match fuel with
  | 0 => .running cur_offset
  | fuel' + 1 =>
    if cur_offset < bytes.length then
      let scode := readLE64 bytes cur_offset
      let slen := readLE64 bytes (cur_offset + 8)
      if scode = code then .found { code := code, length := slen } (cur_offset + 16)
      else claimLocateSection bytes code
        (cur_offset + (slen * SIZEOF_STAT_FILE_BLOCK + SIZEOF_STAT_FILE_SECTION)) fuel'
    else .not_found

/-- A well-formed two-section file: 288 header bytes, section header
`(code 1, length 2)`, two zeroed blocks, section header
`(code 2, length 1)`, one zeroed block; 368 bytes in total.  Header
bytes are irrelevant to the walk, which starts at offset 288. -/
def sectionFileBytes : List Nat :=
  List.replicate 288 0 ++
  [1, 0, 0, 0, 0, 0, 0, 0] ++ [2, 0, 0, 0, 0, 0, 0, 0] ++
  List.replicate 32 0 ++
  [2, 0, 0, 0, 0, 0, 0, 0] ++ [1, 0, 0, 0, 0, 0, 0, 0] ++
  List.replicate 16 0

/-- Outcome of the size comparison in `statfile_pool_open` for a file
that exists and is not yet open. -/
inductive OpenSizeDecision where
  | reindex (newSize : Nat)
  | useDisk (diskSize : Nat)
deriving DecidableEq

/-- The reindex trigger of `statfile_pool_open`:
`!forced && labs (size - st.st_size) > (long) sizeof (struct stat_file) * 2
&& size > sizeof (struct stat_file)`; otherwise the existing file is
mapped at its on-disk size `st.st_size` (later validation may still
reject it). -/
def statfile_pool_open_size_decision (forced : Bool) (size st_size : Nat) :
    OpenSizeDecision :=
  if forced = false ∧ ((size : Int) - (st_size : Int)).natAbs > 2 * SIZEOF_STAT_FILE ∧
      size > SIZEOF_STAT_FILE then
    .reindex size
  else
    .useDisk st_size

/-- The trigger condition exactly as claim C7 states it, with the
spec's 256-byte `sizeof(Header)`. -/
def claimReindexTrigger (size st_size : Nat) : Prop :=
  ((size : Int) - (st_size : Int)).natAbs > 2 * 256 ∧ size > 256

/-- Outcome of the entry checks of `statfile_pool_open`. -/
inductive PoolOpenGate where
  | existing
  | capacity_error
  | proceed
deriving DecidableEq

/-- The entry of `statfile_pool_open`: return the existing handle if the
name is already open, fail when `pool->opened >= STATFILES_MAX - 1`,
otherwise take the slot `pool->files[pool->opened++]` (subsequent I/O
failures release it again; they are outside this model). -/
def statfile_pool_open_gate (files : List String) (filename : String) :
    List String × PoolOpenGate :=
  if files.contains filename then (files, .existing)
  else if STATFILES_MAX - 1 ≤ files.length then (files, .capacity_error)
  else (files ++ [filename], .proceed)

/-- Backup block-area words for the reindex counterexample: block 0 is
`(hash1 = 1, hash2 = 0x3FF00000)` with value bits `0x3FF0000000000001`
(the double `1 + 2 ^ -52`), block 1 is `(hash1 = 2, hash2 = 0x40000000)`
with value bits of `1.0`. -/
def ws5 : List Nat :=
  [4607182418800017409, 4607182418800017409, 4611686018427387906, 4607182418800017408]

/-- A backup header with non-trivial revision metadata. -/
def hdr_backup : stat_file_header := { revision := 7, rev_time := 9 }

/-- The file produced by `rspamd_mmaped_file_reindex hdr_backup [] 336`. -/
def reindex_out : stat_file_model :=
  { header := { revision := 7, rev_time := 9, total_blocks := 2 },
    sect := { code := 1, length := 2 },
    blocks := List.replicate 2 freeBlock }

/-- A mapped statfile with a legacy header (`total_blocks = 0`). -/
def legacy_map : stat_file_model :=
  { header := { total_blocks := 0 }, sect := { code := 1, length := 4 }, blocks := [] }

/-- `legacy_map` after `statfile_get_total_blocks` fixed its header. -/
def legacy_map2 : stat_file_model :=
  { header := { total_blocks := 4 }, sect := { code := 1, length := 4 }, blocks := [] }

/-- A handle mapping `legacy_map` with cursor on its section. -/
def legacy_file : rspamd_mmaped_file :=
  { map := some legacy_map, cur_section := { code := 1, length := 4 } }

/-- `legacy_file` after the in-place header fix. -/
def legacy_file_updated : rspamd_mmaped_file :=
  { map := some legacy_map2, cur_section := { code := 1, length := 4 } }

/-! ### List helpers -/

theorem pow2_eq (e : Nat) : pow2 e = 2 ^ e := by
  unfold pow2
  rw [← Nat.pow_mul, ← Nat.pow_add]
  congr 1
  omega

theorem getD_set_same {α : Type} (l : List α) (j : Nat) (b d : α) (h : j < l.length) :
    (l.set j b).getD j d = b := by
  induction l generalizing j with
  | nil => simp at h
  | cons a t ih =>
    cases j with
    | zero => rfl
    | succ j => simpa using ih j (by simpa using h)

theorem getD_set_other {α : Type} (l : List α) (i j : Nat) (b d : α) (h : i ≠ j) :
    (l.set j b).getD i d = l.getD i d := by
  induction l generalizing i j with
  | nil => simp
  | cons a t ih =>
    cases j with
    | zero =>
      cases i with
      | zero => exact absurd rfl h
      | succ i => simp
    | succ j =>
      cases i with
      | zero => simp
      | succ i => simpa using ih i j (fun hh => h (by omega))

theorem drop_eq_getD_cons {α : Type} (l : List α) (pos : Nat) (d : α) (h : pos < l.length) :
    l.drop pos = l.getD pos d :: l.drop (pos + 1) := by
  induction l generalizing pos with
  | nil => simp at h
  | cons a t ih =>
    cases pos with
    | zero => simp
    | succ p => simpa using ih p (by simpa using h)

/-! ### Unfolding equations for the probe loops -/

theorem getLoop_succ (blocks : List stat_file_block) (h1 h2 pos fuel : Nat) :
    getLoop blocks h1 h2 pos (fuel + 1) =
      if blocks.length ≤ pos then 0
      else if isMatch (blocks.getD pos freeBlock) h1 h2 then (blocks.getD pos freeBlock).value
      else getLoop blocks h1 h2 (pos + 1) fuel := rfl

theorem setLoop_succ (blocks : List stat_file_block) (h1 h2 : Nat) (v : Rat)
    (blocknum pos fuel : Nat) (acc : Option (Nat × Rat)) :
    setLoop blocks h1 h2 v blocknum pos (fuel + 1) acc =
      if blocks.length ≤ pos then expireWrite blocks h1 h2 v blocknum acc
      else if isMatch (blocks.getD pos freeBlock) h1 h2 then
        { blocks := blocks.set pos { blocks.getD pos freeBlock with value := v },
          used_incremented := false }
      else if isFree (blocks.getD pos freeBlock) then
        { blocks := blocks.set pos { hash1 := h1, hash2 := h2, value := v },
          used_incremented := true }
      else setLoop blocks h1 h2 v blocknum (pos + 1) fuel
        (expireUpdate acc pos (blocks.getD pos freeBlock).value) := rfl

theorem accumMin_succ (blocks : List stat_file_block) (acc : Option (Nat × Rat))
    (pos fuel : Nat) :
    accumMin blocks acc pos (fuel + 1) =
      if blocks.length ≤ pos then acc
      else accumMin blocks (expireUpdate acc pos (blocks.getD pos freeBlock).value)
        (pos + 1) fuel := rfl

theorem matchOrFree_false_parts (blocks : List stat_file_block) (h1 h2 i : Nat)
    (hil : i < blocks.length) (hmof : matchOrFreeAt blocks h1 h2 i = false) :
    isMatch (blocks.getD i freeBlock) h1 h2 = false ∧
      isFree (blocks.getD i freeBlock) = false := by
  rw [matchOrFreeAt, decide_eq_true hil, Bool.true_and] at hmof
  constructor
  · cases h : isMatch (blocks.getD i freeBlock) h1 h2
    · rfl
    · rw [h, Bool.true_or] at hmof
      exact hmof
  · cases h : isFree (blocks.getD i freeBlock)
    · rfl
    · rw [h, Bool.or_true] at hmof
      exact hmof

/-! ### The set loop writes the new triple at the first matching or free slot -/

theorem setLoop_first_write (blocks : List stat_file_block) (h1 h2 : Nat) (v : Rat)
    (blocknum : Nat) :
    ∀ fuel pos acc, (∃ i, i < fuel ∧ matchOrFreeAt blocks h1 h2 (pos + i) = true) →
      ∃ j, pos ≤ j ∧ j < pos + fuel ∧ j < blocks.length ∧
        (∀ i, pos ≤ i → i < j → matchOrFreeAt blocks h1 h2 i = false) ∧
        (setLoop blocks h1 h2 v blocknum pos fuel acc).blocks =
          blocks.set j { hash1 := h1, hash2 := h2, value := v } := by
  intro fuel
  induction fuel with
  | zero =>
    rintro pos acc ⟨i, hi, -⟩
    omega
  | succ fuel ih =>
    rintro pos acc ⟨i, hi, hmf⟩
    by_cases hpos : blocks.length ≤ pos
    · exfalso
      have hlt : ¬ (pos + i < blocks.length) := by omega
      simp [matchOrFreeAt, hlt] at hmf
    · push_neg at hpos
      by_cases hm : isMatch (blocks.getD pos freeBlock) h1 h2 = true
      · refine ⟨pos, le_refl _, by omega, hpos, fun i h1i h2i => by omega, ?_⟩
        obtain ⟨e1, e2⟩ : (blocks.getD pos freeBlock).hash1 = h1 ∧
            (blocks.getD pos freeBlock).hash2 = h2 := by
          simpa [isMatch] using hm
        rw [setLoop_succ, if_neg (by omega : ¬ blocks.length ≤ pos), if_pos hm]
        have hbe : ({ blocks.getD pos freeBlock with value := v } : stat_file_block) =
            { hash1 := h1, hash2 := h2, value := v } := by
          rw [← e1, ← e2]
        rw [hbe]
      · by_cases hf : isFree (blocks.getD pos freeBlock) = true
        · refine ⟨pos, le_refl _, by omega, hpos, fun i h1i h2i => by omega, ?_⟩
          rw [setLoop_succ, if_neg (by omega : ¬ blocks.length ≤ pos), if_neg hm, if_pos hf]
        · have hm' : isMatch (blocks.getD pos freeBlock) h1 h2 = false := by
            cases hb : isMatch (blocks.getD pos freeBlock) h1 h2
            · rfl
            · exact absurd hb hm
          have hf' : isFree (blocks.getD pos freeBlock) = false := by
            cases hb : isFree (blocks.getD pos freeBlock)
            · rfl
            · exact absurd hb hf
          have hz : i ≠ 0 := by
            intro hz
            subst hz
            rw [Nat.add_zero, matchOrFreeAt, decide_eq_true hpos, Bool.true_and,
              hm', hf'] at hmf
            exact absurd hmf (by decide)
          obtain ⟨i', rfl⟩ : ∃ i', i = i' + 1 := ⟨i - 1, by omega⟩
          obtain ⟨j, hj1, hj2, hj3, hprior, hres⟩ :=
            ih (pos + 1) (expireUpdate acc pos (blocks.getD pos freeBlock).value)
              ⟨i', by omega, by rw [show pos + 1 + i' = pos + (i' + 1) by omega]; exact hmf⟩
          refine ⟨j, by omega, by omega, hj3, ?_, ?_⟩
          · intro k hk1 hk2
            rcases Nat.eq_or_lt_of_le hk1 with hk | hk
            · subst hk
              rw [matchOrFreeAt, decide_eq_true hpos, Bool.true_and, hm', hf']
              rfl
            · exact hprior k (by omega) hk2
          · rw [setLoop_succ, if_neg (by omega : ¬ blocks.length ≤ pos), if_neg hm, if_neg hf]
            exact hres

/-! ### The get loop returns the value of the first matching slot -/

theorem getLoop_finds (blocks : List stat_file_block) (h1 h2 : Nat) :
    ∀ fuel pos j, pos ≤ j → j < pos + fuel → j < blocks.length →
      (∀ i, pos ≤ i → i < j → isMatch (blocks.getD i freeBlock) h1 h2 = false) →
      isMatch (blocks.getD j freeBlock) h1 h2 = true →
      getLoop blocks h1 h2 pos fuel = (blocks.getD j freeBlock).value := by
  intro fuel
  induction fuel with
  | zero =>
    intro pos j hpj hjf _ _ _
    omega
  | succ fuel ih =>
    intro pos j hpj hjf hjl hprior hj
    rw [getLoop_succ, if_neg (by omega : ¬ blocks.length ≤ pos)]
    rcases Nat.eq_or_lt_of_le hpj with hpe | hlt
    · subst hpe
      rw [if_pos hj]
    · rw [if_neg (by simp only [hprior pos (le_refl pos) hlt]; exact Bool.false_ne_true)]
      exact ih (pos + 1) j (by omega) (by omega) hjl
        (fun i hi1 hi2 => hprior i (by omega) hi2) hj

/-- Claim C1: for every non-zero key pair `(h1, h2)` and every value `v`,
after `put(h1, h2, t, v, _)` on an open statfile whose probe chain for
`h1` still has the key or a free slot within reach, a subsequent
`get(h1, h2, now)` returns exactly `v`. -/
theorem get_after_put_roundtrip (blocks : List stat_file_block) (h1 h2 : Nat) (v : Rat)
    (hkey : ¬(h1 = 0 ∧ h2 = 0))
    (hreach : chainHasMatchOrFree blocks h1 h2 = true) :
    statfile_pool_get_block
      (statfile_pool_set_block_common blocks h1 h2 v).blocks h1 h2 = v := by
  obtain ⟨i, hi, hmf⟩ : ∃ i, i < CHAIN_LENGTH ∧
      matchOrFreeAt blocks h1 h2 (h1 % blocks.length + i) = true := by
    simpa [chainHasMatchOrFree, List.any_eq_true, List.mem_range] using hreach
  obtain ⟨j, hj1, hj2, hj3, hprior, hset⟩ :=
    setLoop_first_write blocks h1 h2 v (h1 % blocks.length) CHAIN_LENGTH
      (h1 % blocks.length) none ⟨i, hi, hmf⟩
  have hset' : (statfile_pool_set_block_common blocks h1 h2 v).blocks =
      blocks.set j { hash1 := h1, hash2 := h2, value := v } := hset
  rw [hset']
  have hlen : (blocks.set j { hash1 := h1, hash2 := h2, value := v }).length =
      blocks.length := List.length_set blocks j _
  have hgj : (blocks.set j { hash1 := h1, hash2 := h2, value := v }).getD j freeBlock =
      { hash1 := h1, hash2 := h2, value := v } := getD_set_same blocks j _ freeBlock hj3
  have := getLoop_finds (blocks.set j { hash1 := h1, hash2 := h2, value := v }) h1 h2
    CHAIN_LENGTH (h1 % blocks.length) j hj1 hj2 (by rw [hlen]; exact hj3)
    (fun i hi1 hi2 => by
      rw [getD_set_other blocks i j _ freeBlock (by omega)]
      exact (matchOrFree_false_parts blocks h1 h2 i (by omega) (hprior i hi1 hi2)).1)
    (by rw [hgj]; simp [isMatch])
  rw [statfile_pool_get_block, hlen, this, hgj]

/-- Witness for C1 at a concrete input. -/
theorem get_after_put_roundtrip_witness :
    (¬((5 : Nat) = 0 ∧ (6 : Nat) = 0)) ∧
    chainHasMatchOrFree [freeBlock, freeBlock] 5 6 = true ∧
    statfile_pool_get_block
      (statfile_pool_set_block_common [freeBlock, freeBlock] 5 6 3).blocks 5 6 = 3 :=
  ⟨by decide, by decide,
    get_after_put_roundtrip [freeBlock, freeBlock] 5 6 3 (by decide) (by decide)⟩

/-! ### The get loop only reads the bounded window -/

theorem chainFindValue_nil (h1 h2 : Nat) : chainFindValue [] h1 h2 = 0 := rfl

theorem chainFindValue_cons_pos (b : stat_file_block) (w : List stat_file_block)
    (h1 h2 : Nat) (h : isMatch b h1 h2 = true) :
    chainFindValue (b :: w) h1 h2 = b.value := by
  simp only [chainFindValue, List.find?, h]

theorem chainFindValue_cons_neg (b : stat_file_block) (w : List stat_file_block)
    (h1 h2 : Nat) (h : isMatch b h1 h2 = false) :
    chainFindValue (b :: w) h1 h2 = chainFindValue w h1 h2 := by
  simp only [chainFindValue, List.find?, h]

theorem getLoop_window (blocks : List stat_file_block) (h1 h2 : Nat) :
    ∀ fuel pos, getLoop blocks h1 h2 pos fuel =
      chainFindValue ((blocks.drop pos).take fuel) h1 h2 := by
  intro fuel
  induction fuel with
  | zero =>
    intro pos
    rw [List.take_zero, chainFindValue_nil]
    rfl
  | succ fuel ih =>
    intro pos
    by_cases hpos : blocks.length ≤ pos
    · rw [getLoop_succ, if_pos hpos, List.drop_eq_nil_of_le hpos]
      rw [List.take_nil, chainFindValue_nil]
    · push_neg at hpos
      rw [getLoop_succ, if_neg (by omega : ¬ blocks.length ≤ pos),
        drop_eq_getD_cons blocks pos freeBlock hpos, List.take_succ_cons]
      by_cases hm : isMatch (blocks.getD pos freeBlock) h1 h2 = true
      · rw [if_pos hm, chainFindValue_cons_pos _ _ _ _ hm]
      · have hm' : isMatch (blocks.getD pos freeBlock) h1 h2 = false := by
          cases hb : isMatch (blocks.getD pos freeBlock) h1 h2
          · rfl
          · exact absurd hb hm
        rw [if_neg hm, ih (pos + 1), chainFindValue_cons_neg _ _ _ _ hm']

/-! ### The set loop writes inside the bounded window -/

theorem expireUpdate_bounds (acc : Option (Nat × Rat)) (pos : Nat) (v : Rat)
    (len blocknum : Nat) (hbp : blocknum ≤ pos) (hpl : pos < len)
    (hacc : ∀ j m, acc = some (j, m) → blocknum ≤ j ∧ j < pos ∧ j < len) :
    ∀ j m, expireUpdate acc pos v = some (j, m) →
      blocknum ≤ j ∧ j < pos + 1 ∧ j < len := by
  intro j m hjm
  cases acc with
  | none =>
    obtain ⟨rfl, rfl⟩ : pos = j ∧ v = m := by simpa [expireUpdate] using hjm
    omega
  | some jm =>
    obtain ⟨j0, m0⟩ := jm
    obtain ⟨hb1, hb2, hb3⟩ := hacc j0 m0 rfl
    simp only [expireUpdate] at hjm
    by_cases hvm : v < m0
    · rw [if_pos hvm] at hjm
      obtain ⟨rfl, rfl⟩ : pos = j ∧ v = m := by simpa using hjm
      omega
    · rw [if_neg hvm] at hjm
      obtain ⟨rfl, rfl⟩ : j0 = j ∧ m0 = m := by simpa using hjm
      omega

theorem setLoop_writes_in_window (blocks : List stat_file_block) (h1 h2 : Nat) (v : Rat)
    (blocknum : Nat) (hbn : blocknum < blocks.length) :
    ∀ fuel pos acc, blocknum ≤ pos →
      (∀ j m, acc = some (j, m) → blocknum ≤ j ∧ j < pos ∧ j < blocks.length) →
      ∃ j b', blocknum ≤ j ∧ (j < pos + fuel ∨ j = blocknum) ∧ j < blocks.length ∧
        (setLoop blocks h1 h2 v blocknum pos fuel acc).blocks = blocks.set j b' := by
  intro fuel
  induction fuel with
  | zero =>
    intro pos acc hbp hacc
    cases acc with
    | none => exact ⟨blocknum, _, le_refl _, Or.inr rfl, hbn, rfl⟩
    | some jm =>
      obtain ⟨j, m⟩ := jm
      obtain ⟨ha1, ha2, ha3⟩ := hacc j m rfl
      exact ⟨j, _, ha1, Or.inl (by omega), ha3, rfl⟩
  | succ fuel ih =>
    intro pos acc hbp hacc
    by_cases hpos : blocks.length ≤ pos
    · rw [setLoop_succ, if_pos hpos]
      cases acc with
      | none => exact ⟨blocknum, _, le_refl _, Or.inr rfl, hbn, rfl⟩
      | some jm =>
        obtain ⟨j, m⟩ := jm
        obtain ⟨ha1, ha2, ha3⟩ := hacc j m rfl
        exact ⟨j, _, ha1, Or.inl (by omega), ha3, rfl⟩
    · push_neg at hpos
      rw [setLoop_succ, if_neg (by omega : ¬ blocks.length ≤ pos)]
      by_cases hm : isMatch (blocks.getD pos freeBlock) h1 h2 = true
      · rw [if_pos hm]
        exact ⟨pos, _, by omega, Or.inl (by omega), hpos, rfl⟩
      · rw [if_neg hm]
        by_cases hf : isFree (blocks.getD pos freeBlock) = true
        · rw [if_pos hf]
          exact ⟨pos, _, by omega, Or.inl (by omega), hpos, rfl⟩
        · rw [if_neg hf]
          obtain ⟨j, b', hj1, hj2, hj3, hres⟩ := ih (pos + 1)
            (expireUpdate acc pos (blocks.getD pos freeBlock).value) (by omega)
            (expireUpdate_bounds acc pos _ blocks.length blocknum hbp hpos hacc)
          refine ⟨j, b', hj1, ?_, hj3, hres⟩
          rcases hj2 with hj2 | hj2
          · exact Or.inl (by omega)
          · exact Or.inr hj2

/-- Claim C2: both `get` and `put` terminate after inspecting at most
128 blocks: the lookup result only depends on the at-most-128-slot
window of consecutive slots `slot0, slot0+1, ...` with
`slot0 = h1 mod section_length`, clamped (without wraparound) at the
section end, and the insert rewrites exactly one slot of that window.
(Both loop models are structurally recursive, hence terminating.) -/
theorem chain_bound_get_put (blocks : List stat_file_block) (h1 h2 : Nat) (v : Rat)
    (hlen : 0 < blocks.length) :
    (chainWindow blocks h1).length ≤ CHAIN_LENGTH ∧
    statfile_pool_get_block blocks h1 h2 = chainFindValue (chainWindow blocks h1) h1 h2 ∧
    (∃ j b', h1 % blocks.length ≤ j ∧ j < h1 % blocks.length + CHAIN_LENGTH ∧
      j < blocks.length ∧
      (statfile_pool_set_block_common blocks h1 h2 v).blocks = blocks.set j b') := by
  have hCL : CHAIN_LENGTH = 128 := rfl
  refine ⟨?_, ?_, ?_⟩
  · rw [chainWindow, List.length_take]
    exact min_le_left _ _
  · rw [statfile_pool_get_block, chainWindow]
    exact getLoop_window blocks h1 h2 CHAIN_LENGTH (h1 % blocks.length)
  · have hbn : h1 % blocks.length < blocks.length := Nat.mod_lt h1 hlen
    obtain ⟨j, b', hj1, hj2, hj3, hres⟩ :=
      setLoop_writes_in_window blocks h1 h2 v (h1 % blocks.length) hbn CHAIN_LENGTH
        (h1 % blocks.length) none (le_refl _) (fun j m hjm => by simp at hjm)
    refine ⟨j, b', hj1, ?_, hj3, hres⟩
    rcases hj2 with hj2 | hj2 <;> omega

/-- Witness for C2 at a concrete input. -/
theorem chain_bound_get_put_witness :
    0 < ([freeBlock] : List stat_file_block).length ∧
    ((chainWindow [freeBlock] 0).length ≤ CHAIN_LENGTH ∧
     statfile_pool_get_block [freeBlock] 0 0 =
       chainFindValue (chainWindow [freeBlock] 0) 0 0 ∧
     (∃ j b', 0 % ([freeBlock] : List stat_file_block).length ≤ j ∧
       j < 0 % ([freeBlock] : List stat_file_block).length + CHAIN_LENGTH ∧
       j < ([freeBlock] : List stat_file_block).length ∧
       (statfile_pool_set_block_common [freeBlock] 0 0 1).blocks =
         ([freeBlock] : List stat_file_block).set j b')) :=
  ⟨by decide, chain_bound_get_put [freeBlock] 0 0 1 (by decide)⟩

/-! ### Full-chain behaviour of the set loop: expiry of the minimum slot -/

theorem isMatch_false_key (b : stat_file_block) (h1 h2 : Nat)
    (h : isMatch b h1 h2 = false) : ¬(b.hash1 = h1 ∧ b.hash2 = h2) := by
  rintro ⟨e1, e2⟩
  simp only [isMatch] at h
  rw [e1, e2] at h
  simp at h

theorem setLoop_full_scan (blocks : List stat_file_block) (h1 h2 : Nat) (v : Rat)
    (blocknum : Nat) :
    ∀ fuel pos acc,
      (∀ q, pos ≤ q → q < blocks.length → q < pos + fuel →
        isMatch (blocks.getD q freeBlock) h1 h2 = false ∧
          isFree (blocks.getD q freeBlock) = false) →
      setLoop blocks h1 h2 v blocknum pos fuel acc =
        expireWrite blocks h1 h2 v blocknum (accumMin blocks acc pos fuel) := by
  intro fuel
  induction fuel with
  | zero =>
    intro pos acc hscan
    rfl
  | succ fuel ih =>
    intro pos acc hscan
    by_cases hpos : blocks.length ≤ pos
    · rw [setLoop_succ, if_pos hpos, accumMin_succ, if_pos hpos]
    · push_neg at hpos
      obtain ⟨hm, hf⟩ := hscan pos (le_refl _) hpos (by omega)
      rw [setLoop_succ, if_neg (by omega : ¬ blocks.length ≤ pos),
        if_neg (by simp only [hm]; exact Bool.false_ne_true),
        if_neg (by simp only [hf]; exact Bool.false_ne_true),
        accumMin_succ, if_neg (by omega : ¬ blocks.length ≤ pos)]
      exact ih (pos + 1) _ (fun q hq1 hq2 hq3 => hscan q (by omega) hq2 (by omega))

theorem accumMin_spec (blocks : List stat_file_block) :
    ∀ fuel pos j0 m0, m0 = (blocks.getD j0 freeBlock).value →
      ∃ j, accumMin blocks (some (j0, m0)) pos fuel =
          some (j, (blocks.getD j freeBlock).value) ∧
        (j = j0 ∨ (pos ≤ j ∧ j < pos + fuel ∧ j < blocks.length)) ∧
        (blocks.getD j freeBlock).value ≤ m0 ∧
        (∀ q, pos ≤ q → q < blocks.length → q < pos + fuel →
          (blocks.getD j freeBlock).value ≤ (blocks.getD q freeBlock).value) := by
  intro fuel
  induction fuel with
  | zero =>
    intro pos j0 m0 hm0
    exact ⟨j0, by rw [hm0]; exact rfl, Or.inl rfl, by rw [hm0], fun q hq1 hq2 hq3 => by omega⟩
  | succ fuel ih =>
    intro pos j0 m0 hm0
    by_cases hpos : blocks.length ≤ pos
    · refine ⟨j0, ?_, Or.inl rfl, by rw [hm0], fun q hq1 hq2 hq3 => by omega⟩
      rw [accumMin_succ, if_pos hpos, hm0]
    · push_neg at hpos
      rw [accumMin_succ, if_neg (by omega : ¬ blocks.length ≤ pos)]
      by_cases hvm : (blocks.getD pos freeBlock).value < m0
      · have hstep : expireUpdate (some (j0, m0)) pos (blocks.getD pos freeBlock).value =
            some (pos, (blocks.getD pos freeBlock).value) := by
          simp only [expireUpdate, if_pos hvm]
        rw [hstep]
        obtain ⟨j, heq, hj, hle, hmin⟩ := ih (pos + 1) pos _ rfl
        refine ⟨j, heq, ?_, le_trans hle (le_of_lt hvm), ?_⟩
        · rcases hj with rfl | ⟨hja, hjb, hjc⟩
          · exact Or.inr ⟨le_refl _, by omega, hpos⟩
          · exact Or.inr ⟨by omega, by omega, hjc⟩
        · intro q hq1 hq2 hq3
          rcases Nat.eq_or_lt_of_le hq1 with hq | hq
          · subst hq
            exact hle
          · exact hmin q (by omega) hq2 (by omega)
      · have hstep : expireUpdate (some (j0, m0)) pos (blocks.getD pos freeBlock).value =
            some (j0, m0) := by
          simp only [expireUpdate, if_neg hvm]
        rw [hstep]
        obtain ⟨j, heq, hj, hle, hmin⟩ := ih (pos + 1) j0 m0 hm0
        refine ⟨j, heq, ?_, hle, ?_⟩
        · rcases hj with hj | ⟨hja, hjb, hjc⟩
          · exact Or.inl hj
          · exact Or.inr ⟨by omega, by omega, hjc⟩
        · intro q hq1 hq2 hq3
          rcases Nat.eq_or_lt_of_le hq1 with hq | hq
          · subst hq
            exact le_trans hle (not_lt.mp hvm)
          · exact hmin q (by omega) hq2 (by omega)

/-- Claim C3: when every inspected slot of a key's probe chain is
occupied by other keys, `put(h1, h2, t, v, _)` overwrites the slot
holding the minimum value seen in the chain with `(h1, h2, v)`; the
chain then contains the new key (a lookup returns `v`) and, when the
evicted key occurred only at that slot, no longer contains it.  (With a
positive section length `slot0 = h1 mod section_length` is always below
the section length, so the fallback that would overwrite `slot0` after
scanning nothing is unreachable.) -/
theorem eviction_min_on_full_chain (blocks : List stat_file_block) (h1 h2 : Nat) (v : Rat)
    (hfull : chainFull blocks h1 h2 = true) :
    ∃ j, h1 % blocks.length ≤ j ∧ j < h1 % blocks.length + windowLen blocks h1 ∧
      (∀ i, h1 % blocks.length ≤ i → i < h1 % blocks.length + windowLen blocks h1 →
        (blocks.getD j freeBlock).value ≤ (blocks.getD i freeBlock).value) ∧
      (statfile_pool_set_block_common blocks h1 h2 v).blocks =
        blocks.set j { hash1 := h1, hash2 := h2, value := v } ∧
      statfile_pool_get_block
        (blocks.set j { hash1 := h1, hash2 := h2, value := v }) h1 h2 = v ∧
      ((∀ i, h1 % blocks.length ≤ i → i < h1 % blocks.length + windowLen blocks h1 →
          i ≠ j →
          ¬((blocks.getD i freeBlock).hash1 = (blocks.getD j freeBlock).hash1 ∧
            (blocks.getD i freeBlock).hash2 = (blocks.getD j freeBlock).hash2)) →
        ∀ i, h1 % blocks.length ≤ i → i < h1 % blocks.length + windowLen blocks h1 →
          ¬(((blocks.set j { hash1 := h1, hash2 := h2, value := v }).getD i
              freeBlock).hash1 = (blocks.getD j freeBlock).hash1 ∧
            ((blocks.set j { hash1 := h1, hash2 := h2, value := v }).getD i
              freeBlock).hash2 = (blocks.getD j freeBlock).hash2)) := by
  have hCL : CHAIN_LENGTH = 128 := rfl
  have hfull' := hfull
  rw [chainFull, Bool.and_eq_true] at hfull'
  have hL : 0 < blocks.length := of_decide_eq_true hfull'.1
  have hbn : h1 % blocks.length < blocks.length := Nat.mod_lt h1 hL
  have hAll : ∀ i, i < windowLen blocks h1 →
      isMatch (blocks.getD (h1 % blocks.length + i) freeBlock) h1 h2 = false ∧
        isFree (blocks.getD (h1 % blocks.length + i) freeBlock) = false := by
    intro i hi
    have hmem := List.all_eq_true.mp hfull'.2 i (List.mem_range.mpr hi)
    rw [Bool.and_eq_true] at hmem
    constructor
    · cases hb : isMatch (blocks.getD (h1 % blocks.length + i) freeBlock) h1 h2
      · rfl
      · rw [hb] at hmem
        exact absurd hmem.1 (by decide)
    · cases hb : isFree (blocks.getD (h1 % blocks.length + i) freeBlock)
      · rfl
      · rw [hb] at hmem
        exact absurd hmem.2 (by decide)
  have hwl : windowLen blocks h1 = min 128 (blocks.length - h1 % blocks.length) := rfl
  have hscan : ∀ q, h1 % blocks.length ≤ q → q < blocks.length →
      q < h1 % blocks.length + CHAIN_LENGTH →
      isMatch (blocks.getD q freeBlock) h1 h2 = false ∧
        isFree (blocks.getD q freeBlock) = false := by
    intro q hq1 hq2 hq3
    have hi : q - h1 % blocks.length < windowLen blocks h1 := by
      rw [hwl]
      exact lt_min_iff.mpr ⟨by omega, by omega⟩
    have := hAll (q - h1 % blocks.length) hi
    rwa [show h1 % blocks.length + (q - h1 % blocks.length) = q from by omega] at this
  have hacc1 : accumMin blocks none (h1 % blocks.length) CHAIN_LENGTH =
      accumMin blocks
        (some (h1 % blocks.length,
          (blocks.getD (h1 % blocks.length) freeBlock).value))
        (h1 % blocks.length + 1) 127 := by
    rw [show CHAIN_LENGTH = 127 + 1 from rfl, accumMin_succ,
      if_neg (by omega : ¬ blocks.length ≤ h1 % blocks.length)]
    rfl
  obtain ⟨j, heq, hj, hle, hmin⟩ := accumMin_spec blocks 127 (h1 % blocks.length + 1)
    (h1 % blocks.length) ((blocks.getD (h1 % blocks.length) freeBlock).value) rfl
  have hjb : h1 % blocks.length ≤ j ∧ j < h1 % blocks.length + 128 ∧ j < blocks.length := by
    rcases hj with rfl | ⟨ha, hb, hc⟩
    · exact ⟨le_refl _, by omega, hbn⟩
    · exact ⟨by omega, by omega, hc⟩
  have hjw : j < h1 % blocks.length + windowLen blocks h1 := by
    rw [hwl]
    rcases Nat.le_total 128 (blocks.length - h1 % blocks.length) with hmm | hmm
    · rw [Nat.min_eq_left hmm]
      omega
    · rw [Nat.min_eq_right hmm]
      omega
  have hwle : windowLen blocks h1 ≤ 128 := by
    rw [hwl]
    exact min_le_left _ _
  have hset : (statfile_pool_set_block_common blocks h1 h2 v).blocks =
      blocks.set j { hash1 := h1, hash2 := h2, value := v } := by
    have hrun : statfile_pool_set_block_common blocks h1 h2 v =
        expireWrite blocks h1 h2 v (h1 % blocks.length)
          (accumMin blocks none (h1 % blocks.length) CHAIN_LENGTH) :=
      setLoop_full_scan blocks h1 h2 v (h1 % blocks.length) CHAIN_LENGTH
        (h1 % blocks.length) none hscan
    rw [hrun, hacc1, heq]
    rfl
  refine ⟨j, hjb.1, hjw, ?_, hset, ?_, ?_⟩
  · intro i hi1 hi2
    have hi3 : i < blocks.length := by
      rw [hwl] at hi2
      rcases Nat.le_total 128 (blocks.length - h1 % blocks.length) with hmm | hmm
      · rw [Nat.min_eq_left hmm] at hi2
        omega
      · rw [Nat.min_eq_right hmm] at hi2
        omega
    rcases Nat.eq_or_lt_of_le hi1 with hq | hq
    · rw [← hq]
      exact hle
    · exact hmin i (by omega) hi3 (by omega)
  · have hlen2 : (blocks.set j { hash1 := h1, hash2 := h2, value := v }).length =
        blocks.length := List.length_set blocks j _
    have hgj : (blocks.set j { hash1 := h1, hash2 := h2, value := v }).getD j freeBlock =
        { hash1 := h1, hash2 := h2, value := v } :=
      getD_set_same blocks j _ freeBlock hjb.2.2
    have hfind := getLoop_finds
      (blocks.set j { hash1 := h1, hash2 := h2, value := v }) h1 h2
      CHAIN_LENGTH (h1 % blocks.length) j hjb.1 (by omega) (by rw [hlen2]; exact hjb.2.2)
      (fun i hi1 hi2 => by
        rw [getD_set_other blocks i j _ freeBlock (by omega)]
        exact (hscan i hi1 (by omega) (by omega)).1)
      (by rw [hgj]; simp [isMatch])
    rw [statfile_pool_get_block, hlen2, hfind, hgj]
  · intro huniq i hi1 hi2
    by_cases hij : i = j
    · subst hij
      rw [getD_set_same blocks i _ freeBlock hjb.2.2]
      rintro ⟨e1, e2⟩
      have hmj : isMatch (blocks.getD i freeBlock) h1 h2 = false :=
        (hscan i hjb.1 hjb.2.2 (by omega)).1
      exact isMatch_false_key _ _ _ hmj ⟨e1.symm, e2.symm⟩
    · rw [getD_set_other blocks i j _ freeBlock hij]
      exact huniq i hi1 hi2 hij

/-- Witness for C3 at a concrete input: a section of two occupied
blocks, inserting a key whose single-slot chain is full. -/
theorem eviction_min_on_full_chain_witness :
    chainFull [{ hash1 := 1, hash2 := 1, value := 5 },
      { hash1 := 2, hash2 := 2, value := 3 }] 7 9 = true ∧
    (∃ j, 7 % ([{ hash1 := 1, hash2 := 1, value := 5 },
        { hash1 := 2, hash2 := 2, value := 3 }] : List stat_file_block).length ≤ j ∧
      j < 7 % ([{ hash1 := 1, hash2 := 1, value := 5 },
        { hash1 := 2, hash2 := 2, value := 3 }] : List stat_file_block).length +
          windowLen [{ hash1 := 1, hash2 := 1, value := 5 },
            { hash1 := 2, hash2 := 2, value := 3 }] 7 ∧
      (∀ i, 7 % ([{ hash1 := 1, hash2 := 1, value := 5 },
          { hash1 := 2, hash2 := 2, value := 3 }] : List stat_file_block).length ≤ i →
        i < 7 % ([{ hash1 := 1, hash2 := 1, value := 5 },
          { hash1 := 2, hash2 := 2, value := 3 }] : List stat_file_block).length +
            windowLen [{ hash1 := 1, hash2 := 1, value := 5 },
              { hash1 := 2, hash2 := 2, value := 3 }] 7 →
        (([{ hash1 := 1, hash2 := 1, value := 5 },
          { hash1 := 2, hash2 := 2, value := 3 }] : List stat_file_block).getD j
            freeBlock).value ≤
          (([{ hash1 := 1, hash2 := 1, value := 5 },
            { hash1 := 2, hash2 := 2, value := 3 }] : List stat_file_block).getD i
              freeBlock).value) ∧
      (statfile_pool_set_block_common [{ hash1 := 1, hash2 := 1, value := 5 },
        { hash1 := 2, hash2 := 2, value := 3 }] 7 9 4).blocks =
        ([{ hash1 := 1, hash2 := 1, value := 5 },
          { hash1 := 2, hash2 := 2, value := 3 }] : List stat_file_block).set j
          { hash1 := 7, hash2 := 9, value := 4 } ∧
      statfile_pool_get_block
        (([{ hash1 := 1, hash2 := 1, value := 5 },
          { hash1 := 2, hash2 := 2, value := 3 }] : List stat_file_block).set j
          { hash1 := 7, hash2 := 9, value := 4 }) 7 9 = 4 ∧
      ((∀ i, 7 % ([{ hash1 := 1, hash2 := 1, value := 5 },
            { hash1 := 2, hash2 := 2, value := 3 }] : List stat_file_block).length ≤ i →
          i < 7 % ([{ hash1 := 1, hash2 := 1, value := 5 },
            { hash1 := 2, hash2 := 2, value := 3 }] : List stat_file_block).length +
              windowLen [{ hash1 := 1, hash2 := 1, value := 5 },
                { hash1 := 2, hash2 := 2, value := 3 }] 7 →
          i ≠ j →
          ¬((([{ hash1 := 1, hash2 := 1, value := 5 },
              { hash1 := 2, hash2 := 2, value := 3 }] : List stat_file_block).getD i
                freeBlock).hash1 =
              (([{ hash1 := 1, hash2 := 1, value := 5 },
                { hash1 := 2, hash2 := 2, value := 3 }] : List stat_file_block).getD j
                  freeBlock).hash1 ∧
            (([{ hash1 := 1, hash2 := 1, value := 5 },
              { hash1 := 2, hash2 := 2, value := 3 }] : List stat_file_block).getD i
                freeBlock).hash2 =
              (([{ hash1 := 1, hash2 := 1, value := 5 },
                { hash1 := 2, hash2 := 2, value := 3 }] : List stat_file_block).getD j
                  freeBlock).hash2)) →
        ∀ i, 7 % ([{ hash1 := 1, hash2 := 1, value := 5 },
            { hash1 := 2, hash2 := 2, value := 3 }] : List stat_file_block).length ≤ i →
          i < 7 % ([{ hash1 := 1, hash2 := 1, value := 5 },
            { hash1 := 2, hash2 := 2, value := 3 }] : List stat_file_block).length +
              windowLen [{ hash1 := 1, hash2 := 1, value := 5 },
                { hash1 := 2, hash2 := 2, value := 3 }] 7 →
          ¬(((([{ hash1 := 1, hash2 := 1, value := 5 },
              { hash1 := 2, hash2 := 2, value := 3 }] : List stat_file_block).set j
                { hash1 := 7, hash2 := 9, value := 4 }).getD i freeBlock).hash1 =
              (([{ hash1 := 1, hash2 := 1, value := 5 },
                { hash1 := 2, hash2 := 2, value := 3 }] : List stat_file_block).getD j
                  freeBlock).hash1 ∧
            ((([{ hash1 := 1, hash2 := 1, value := 5 },
              { hash1 := 2, hash2 := 2, value := 3 }] : List stat_file_block).set j
                { hash1 := 7, hash2 := 9, value := 4 }).getD i freeBlock).hash2 =
              (([{ hash1 := 1, hash2 := 1, value := 5 },
                { hash1 := 2, hash2 := 2, value := 3 }] : List stat_file_block).getD j
                  freeBlock).hash2))) :=
  ⟨by decide,
    eviction_min_on_full_chain [{ hash1 := 1, hash2 := 1, value := 5 },
      { hash1 := 2, hash2 := 2, value := 3 }] 7 9 4 (by decide)⟩

/-! ### Capacity formula of create (C4) -/

theorem check_fields (hd : stat_file_header) (sc : stat_file_section)
    (bl : List stat_file_block)
    (hmagic : hd.magic = [114, 115, 100]) (hver : hd.version = [49, 50])
    (hlen : SIZEOF_STAT_FILE ≤ fileByteLen { header := hd, sect := sc, blocks := bl })
    (hsec : sc.length * SIZEOF_STAT_FILE_BLOCK ≤
      fileByteLen { header := hd, sect := sc, blocks := bl }) :
    rspamd_mmaped_file_check { header := hd, sect := sc, blocks := bl } =
      some { map := some { header := hd, sect := sc, blocks := bl }, cur_section := sc } := by
  unfold rspamd_mmaped_file_check
  rw [if_neg (by omega)]
  rw [if_neg (show ¬(hd.magic ≠ [114, 115, 100]) from fun hcon => hcon hmagic)]
  rw [if_neg (show ¬(hd.version = [1, 0]) from by
    intro hcon
    rw [hver] at hcon
    exact absurd hcon (by decide))]
  rw [if_neg (show ¬(hd.version ≠ [49, 50]) from fun hcon => hcon hver)]
  rw [if_neg (show ¬(sc.length * SIZEOF_STAT_FILE_BLOCK >
    fileByteLen { header := hd, sect := sc, blocks := bl }) from by omega)]

theorem get_total_blocks_pure (h : rspamd_mmaped_file) (m : stat_file_model)
    (hm : h.map = some m) (hpos : m.header.total_blocks ≠ 0) :
    (statfile_get_total_blocks (some h)).2 = m.header.total_blocks := by
  obtain ⟨hmap, hcur⟩ := h
  have hm' : hmap = some m := hm
  subst hm'
  simp only [statfile_get_total_blocks]
  rw [if_neg hpos]

/-- Claim C4, corrected: for every size `S` accepted by `create`
(`S ≥ 320 = sizeof (header) + sizeof (section) + sizeof (block)`), the
written header has
`total_blocks = ((S - 288 - 16) / 16) mod 2 ^ 32` — the header struct is
288 bytes (padded), not 256, and the count is narrowed to the 32-bit
`guint nblocks` — and opening the file back exposes the same count. -/
theorem create_total_blocks_formula (now size : Nat) (hsz : 320 ≤ size) :
    ∃ f, statfile_pool_create now size = some f ∧
      f.header.total_blocks = ((size - 288 - 16) / 16) % 2 ^ 32 ∧
      (0 < f.header.total_blocks →
        ∃ h, rspamd_mmaped_file_check f = some h ∧
          (statfile_get_total_blocks (some h)).2 = f.header.total_blocks) := by
  have e1 : SIZEOF_STAT_FILE_HEADER = 288 := rfl
  have e2 : SIZEOF_STAT_FILE_SECTION = 16 := rfl
  have e3 : SIZEOF_STAT_FILE_BLOCK = 16 := rfl
  have hc : statfile_pool_create now size =
      some ⟨⟨[114, 115, 100], [49, 50], now, 0, 0, 0, ((size - 288 - 16) / 16) % 2 ^ 32⟩,
        ⟨STATFILE_SECTION_COMMON, ((size - 288 - 16) / 16) % 2 ^ 32⟩,
        List.replicate (((size - 288 - 16) / 16) % 2 ^ 32) freeBlock⟩ := by
    unfold statfile_pool_create
    rw [e1, e2, e3, if_neg (by omega)]
  refine ⟨_, hc, rfl, ?_⟩
  intro hpos
  have hpos' : 0 < ((size - 288 - 16) / 16) % 2 ^ 32 := hpos
  have hrep : (List.replicate (((size - 288 - 16) / 16) % 2 ^ 32) freeBlock).length =
      ((size - 288 - 16) / 16) % 2 ^ 32 := List.length_replicate _ _
  have hfb : fileByteLen ⟨⟨[114, 115, 100], [49, 50], now, 0, 0, 0,
        ((size - 288 - 16) / 16) % 2 ^ 32⟩,
      ⟨STATFILE_SECTION_COMMON, ((size - 288 - 16) / 16) % 2 ^ 32⟩,
      List.replicate (((size - 288 - 16) / 16) % 2 ^ 32) freeBlock⟩ =
      288 + 16 + 16 * (((size - 288 - 16) / 16) % 2 ^ 32) := by
    unfold fileByteLen
    rw [e1, e2, e3, hrep]
  have hcheck := check_fields
    ⟨[114, 115, 100], [49, 50], now, 0, 0, 0, ((size - 288 - 16) / 16) % 2 ^ 32⟩
    ⟨STATFILE_SECTION_COMMON, ((size - 288 - 16) / 16) % 2 ^ 32⟩
    (List.replicate (((size - 288 - 16) / 16) % 2 ^ 32) freeBlock)
    rfl rfl
    (by rw [hfb]; show (320 : Nat) ≤ _; omega)
    (by rw [hfb]; show ((size - 288 - 16) / 16) % 2 ^ 32 * 16 ≤ _; omega)
  refine ⟨_, hcheck, ?_⟩
  exact get_total_blocks_pure _ _ rfl (by omega)

/-- Counterexample to C4 as stated: a 65,536-byte file gets
`total_blocks = 4077`, not `(65536 - 256 - 16) / 16 = 4079` (the header
struct is 288 bytes, not 256). -/
theorem create_total_blocks_65536_counterexample :
    (statfile_pool_create 0 65536).map (fun f => f.header.total_blocks) = some 4077 ∧
    ¬((4077 : Nat) = (65536 - 256 - 16) / 16) := by
  exact ⟨rfl, by decide⟩

/-- Witness for C4 at a concrete input: the 65,536-byte file of the
spec's scenario. -/
theorem create_total_blocks_formula_witness :
    (320 : Nat) ≤ 65536 ∧
    (∃ f, statfile_pool_create 0 65536 = some f ∧
      f.header.total_blocks =
        ((65536 - SIZEOF_STAT_FILE_HEADER - SIZEOF_STAT_FILE_SECTION) /
          SIZEOF_STAT_FILE_BLOCK) % 2 ^ 32 ∧
      (0 < f.header.total_blocks →
        ∃ h, rspamd_mmaped_file_check f = some h ∧
          (statfile_get_total_blocks (some h)).2 = f.header.total_blocks)) :=
  ⟨by decide, create_total_blocks_formula 0 65536 (by decide)⟩

/-! ### Reindex (C5, C6) -/

/-- Claim C5 (code bug evaluated): the copy loop of reindex steps
`pos += sizeof (block)` where `block` is a pointer — 8 bytes instead of
the 16 its own guard uses — so it also reads misaligned pseudo-blocks
straddling two real blocks.  On the backup `ws5` the pseudo-block at
byte offset 312 reproduces the key `(1, 0x3FF00000)` of real block 0,
and its garbage value `2 + 2 ^ -50` overwrites the real value
`1 + 2 ^ -52` in the destination, although the destination's chains are
nowhere near full. -/
theorem reindex_copy_misaligned_eval :
    alignedBlocks ws5 =
      [{ hash1 := 1, hash2 := 1072693248,
         value := mkRat 4503599627370497 4503599627370496 },
       { hash1 := 2, hash2 := 1073741824, value := 1 }] ∧
    (1 : Nat) ≠ 0 ∧
    mkRat 4503599627370497 4503599627370496 ≠ 0 ∧
    chainHasMatchOrFree (List.replicate 7 freeBlock) 1 1072693248 = true ∧
    statfile_pool_get_block
      (rspamd_mmaped_file_reindex_copy ws5 (List.replicate 7 freeBlock)) 1 1072693248 =
      mkRat 2251799813685249 1125899906842624 ∧
    mkRat 2251799813685249 1125899906842624 ≠
      mkRat 4503599627370497 4503599627370496 :=
  ⟨by decide, by decide, by decide, by decide, by decide, by decide⟩

/-- Claim C6: reindex copies `revision` and `rev_time` from the backup
header into the new file's header unchanged. -/
theorem reindex_preserves_revision (bh : stat_file_header) (ws : List Nat) (size : Nat)
    (f : stat_file_model) (hre : rspamd_mmaped_file_reindex bh ws size = some f) :
    f.header.revision = bh.revision ∧ f.header.rev_time = bh.rev_time := by
  unfold rspamd_mmaped_file_reindex at hre
  split at hre
  · simp at hre
  · split at hre
    · simp at hre
    · split at hre
      · simp at hre
      · injection hre with hre
        subst hre
        exact ⟨rfl, rfl⟩

/-- Witness for C6 at a concrete input. -/
theorem reindex_preserves_revision_witness :
    reindex_out.header.revision = hdr_backup.revision ∧
    reindex_out.header.rev_time = hdr_backup.rev_time :=
  reindex_preserves_revision hdr_backup [] 336 reindex_out (by decide)

/-! ### The reindex trigger of open (C7) -/

/-- Claim C7, corrected: with `forced = false`, open of an existing,
not-yet-open file reindexes to the requested size exactly when
`|size_on_disk - requested| > 2 * sizeof (struct stat_file) = 640` and
`requested > sizeof (struct stat_file) = 320` (not the 2 * 256 / 256 of
the spec's `sizeof(Header)`); otherwise it maps the file at its on-disk
size. -/
theorem open_reindex_threshold (size st_size : Nat) :
    (statfile_pool_open_size_decision false size st_size =
        OpenSizeDecision.reindex size ↔
      ((size : Int) - (st_size : Int)).natAbs > 2 * SIZEOF_STAT_FILE ∧
        size > SIZEOF_STAT_FILE) ∧
    (statfile_pool_open_size_decision false size st_size =
        OpenSizeDecision.useDisk st_size ↔
      ¬(((size : Int) - (st_size : Int)).natAbs > 2 * SIZEOF_STAT_FILE ∧
        size > SIZEOF_STAT_FILE)) := by
  unfold statfile_pool_open_size_decision
  by_cases hc : ((size : Int) - (st_size : Int)).natAbs > 2 * SIZEOF_STAT_FILE ∧
      size > SIZEOF_STAT_FILE
  · rw [if_pos ⟨rfl, hc.1, hc.2⟩]
    refine ⟨⟨fun _ => hc, fun _ => rfl⟩, ?_, ?_⟩
    · intro h
      simp at h
    · intro h
      exact absurd hc h
  · rw [if_neg (by rintro ⟨-, h2, h3⟩; exact hc ⟨h2, h3⟩)]
    refine ⟨⟨?_, fun h => absurd h hc⟩, fun _ => hc, fun _ => rfl⟩
    intro h
    simp at h

/-- Counterexample to C7 as stated: requested size 600, on-disk size
1200.  The claim's threshold (`|600 - 1200| = 600 > 512` and
`600 > 256`) predicts a reindex, but the code compares against
`2 * sizeof (struct stat_file) = 640` and maps the file instead. -/
theorem open_reindex_threshold_counterexample :
    claimReindexTrigger 600 1200 ∧
    statfile_pool_open_size_decision false 600 1200 =
      OpenSizeDecision.useDisk 1200 :=
  ⟨⟨by decide, by decide⟩, by decide⟩

/-- Witness for C7 at a concrete input that does trigger a reindex. -/
theorem open_reindex_threshold_witness :
    statfile_pool_open_size_decision false 2000 100 = OpenSizeDecision.reindex 2000 :=
  (open_reindex_threshold 2000 100).1.mpr (by decide)

/-! ### The section walk (C8) -/

theorem setSectionLoop_stuck (fuel : Nat) :
    statfile_pool_set_section_loop sectionFileBytes 2 290 fuel =
      SectionSearch.running 290 := by
  induction fuel with
  | zero => rfl
  | succ fuel ih => exact ih

/-- Claim C8 (code bug evaluated): on a well-formed two-section file the
walk of `statfile_pool_set_section` for the second section's code never
reaches it: stepping by the raw `sec->length` (2) instead of its byte
span (2 * 16 + 16) lands it at offset 290 inside the first section
header, where the length field it reads from zeroed block bytes is 0, so
the offset never advances again — for every iteration bound the loop is
still running (it neither finds the section nor returns not-found),
while the byte-span walk the claim describes finds the section at offset
336 and sets the seek position to 352. -/
theorem set_section_walk_diverges :
    (∀ fuel, statfile_pool_set_section sectionFileBytes 2 0 true fuel =
        SectionSearch.running 288 ∨
      statfile_pool_set_section sectionFileBytes 2 0 true fuel =
        SectionSearch.running 290) ∧
    claimLocateSection sectionFileBytes 2 SIZEOF_STAT_FILE_HEADER 8 =
      SectionSearch.found { code := 2, length := 1 } 352 := by
  constructor
  · intro fuel
    cases fuel with
    | zero => exact Or.inl rfl
    | succ fuel => exact Or.inr (setSectionLoop_stuck fuel)
  · decide

/-! ### The pool capacity gate (C9) -/

/-- Claim C9, corrected: the open gate rejects for capacity exactly when
`opened ≥ STATFILES_MAX - 1 = 254` (the code compares
`pool->opened >= STATFILES_MAX - 1`), so the pool admits at most 254
open statfiles, not 255; rejection leaves the handle array unchanged,
and below 254 the open proceeds to take a slot. -/
theorem pool_capacity_gate (files : List String) (filename : String)
    (hnew : files.contains filename = false) :
    ((statfile_pool_open_gate files filename).2 = PoolOpenGate.capacity_error ↔
      STATFILES_MAX - 1 ≤ files.length) ∧
    (STATFILES_MAX - 1 ≤ files.length →
      (statfile_pool_open_gate files filename).1 = files) ∧
    (files.length < STATFILES_MAX - 1 →
      (statfile_pool_open_gate files filename).2 = PoolOpenGate.proceed) := by
  have h255 : STATFILES_MAX = 255 := rfl
  unfold statfile_pool_open_gate
  rw [hnew, if_neg (by exact Bool.false_ne_true)]
  by_cases hcap : STATFILES_MAX - 1 ≤ files.length
  · rw [if_pos hcap]
    exact ⟨⟨fun _ => hcap, fun _ => rfl⟩, fun _ => rfl, fun h => absurd hcap (by omega)⟩
  · rw [if_neg hcap]
    refine ⟨⟨?_, fun h => absurd h hcap⟩, fun h => absurd h hcap, fun _ => rfl⟩
    intro h
    simp at h

/-- Counterexample to C9 as stated: with 254 open statfiles — strictly
below the claimed cap of 255 — the open gate already rejects for
capacity. -/
theorem pool_capacity_254_counterexample :
    (List.replicate 254 "s").length < STATFILES_MAX ∧
    (List.replicate 254 "s").contains "t" = false ∧
    (statfile_pool_open_gate (List.replicate 254 "s") "t").2 =
      PoolOpenGate.capacity_error :=
  ⟨by decide, by decide, by decide⟩

/-- Witness for C9 at a concrete input. -/
theorem pool_capacity_gate_witness :
    (((statfile_pool_open_gate [] "a").2 = PoolOpenGate.capacity_error ↔
      STATFILES_MAX - 1 ≤ ([] : List String).length) ∧
     (STATFILES_MAX - 1 ≤ ([] : List String).length →
       (statfile_pool_open_gate [] "a").1 = ([] : List String)) ∧
     (([] : List String).length < STATFILES_MAX - 1 →
       (statfile_pool_open_gate [] "a").2 = PoolOpenGate.proceed)) :=
  pool_capacity_gate [] "a" rfl

/-! ### statfile_get_total_blocks is not a pure read (C10) -/

/-- Claim C10: `statfile_get_total_blocks` returns
`(guint64) - 1 = 2 ^ 64 - 1` for a `NULL` file or mapping, and on a
legacy header with `total_blocks = 0` it writes `cur_section.length`
into the mapped header before returning it; otherwise it is a pure
read. -/
theorem get_total_blocks_effects (f : rspamd_mmaped_file) (m : stat_file_model)
    (hmap : f.map = some m) :
    (statfile_get_total_blocks none).2 = 2 ^ 64 - 1 ∧
    (statfile_get_total_blocks (some { f with map := none })).2 = 2 ^ 64 - 1 ∧
    (m.header.total_blocks = 0 →
      statfile_get_total_blocks (some f) =
        (some { f with map := some { m with header := { m.header with total_blocks := f.cur_section.length } } },
          f.cur_section.length)) ∧
    (m.header.total_blocks ≠ 0 →
      statfile_get_total_blocks (some f) = (some f, m.header.total_blocks)) := by
  obtain ⟨fmap, fcur⟩ := f
  have hm : fmap = some m := hmap
  subst hm
  refine ⟨rfl, rfl, ?_, ?_⟩
  · intro h0
    simp only [statfile_get_total_blocks]
    rw [if_pos h0]
  · intro h0
    simp only [statfile_get_total_blocks]
    rw [if_neg h0]

/-- Witness for C10 at a concrete input with a legacy zero
`total_blocks`. -/
theorem get_total_blocks_effects_witness :
    (statfile_get_total_blocks none).2 = 2 ^ 64 - 1 ∧
    (statfile_get_total_blocks (some { legacy_file with map := none })).2 =
      2 ^ 64 - 1 ∧
    (legacy_map.header.total_blocks = 0 →
      statfile_get_total_blocks (some legacy_file) = (some legacy_file_updated, 4)) ∧
    (legacy_map.header.total_blocks ≠ 0 →
      statfile_get_total_blocks (some legacy_file) =
        (some legacy_file, legacy_map.header.total_blocks)) :=
  get_total_blocks_effects legacy_file legacy_map rfl
